import Mathlib

/-! Verification of the BALROG agent core: the in-context-learning episode
store with its windowed prompt builder (src/balrog/agents/few_shot.py), the
plain-text action extraction policy (src/balrog/agents/naive.py and
few_shot.py) and the structured delimited extraction policy
(src/balrog/agents/robust_cot.py).  Python strings are modelled as Lean
strings, message lists as Lean lists, and the fallible list indexing of the
source as Option. -/

/-- Chat message record from few_shot.py (class Message): a role string, a
content string and an optional opaque attachment. -/
structure Message where
  role : String
  content : String
  attachment : Option String := none
  deriving DecidableEq, Repr

/-- Response record returned by the model client (LLMResponse): model id,
completion text, stop reason, token counts and an optional reasoning trace. -/
structure Response where
  model_id : String
  completion : String
  stop_reason : String
  input_tokens : Nat
  output_tokens : Nat
  reasoning : Option String
  deriving DecidableEq, Repr

/-- Event recorded by update_icl_observation and update_icl_action in
few_shot.py (lines 28-43): a tagged observation or action text. -/
inductive IclEvent where
  | observation (text : String)
  | action (text : String)
  deriving DecidableEq, Repr

/-- ASCII whitespace characters: space, tab, newline, carriage return,
vertical tab and form feed.  This is the ASCII part of the Python regex
class backslash-s and of the default str.strip set; the source strings
handled here are ASCII, so the wider Unicode sets coincide with this one. -/
def isPyWhitespace (c : Char) : Bool :=
  c == ' ' || c == '\t' || c == '\n' || c == '\r' || c == Char.ofNat 11 || c == Char.ofNat 12

/-- Character class kept by filter_letters in naive.py line 99 (identically
few_shot.py line 195): the regex deletes every character outside the class of
ASCII letters, whitespace and the colon. -/
def keptByFilter (c : Char) : Bool :=
  ('a' ≤ c && c ≤ 'z') || ('A' ≤ c && c ≤ 'Z') || isPyWhitespace c || c == ':'

/-- Embedding of filter_letters from naive.py lines 98-99 (identically
few_shot.py lines 194-195): keep exactly the characters of the kept class. -/
def filterLetters (s : String) : String :=
  String.mk (s.data.filter keptByFilter)

/-- Embedding of NaiveAgent._extract_final_answer (naive.py lines 88-104) and
of the identical FewShotAgent._extract_final_answer (few_shot.py lines
184-200): deep copy the response, then replace completion with the filtered
completion text. -/
def naiveExtractFinalAnswer (r : Response) : Response :=
  { r with completion := filterLetters r.completion }

/-- Boolean test that pat occurs at the head of l (character lists). -/
def listStartsWith : List Char → List Char → Bool
  | [], _ => true
  | _ :: _, [] => false
  | a :: pat, b :: l => a == b && listStartsWith pat l

/-- Leftmost-occurrence splitter over character lists: the text before the
first occurrence of pat together with the text after that occurrence, or
none when pat does not occur.  This models the leftmost-match rule of the
Python re.search call for a literal-delimited pattern. -/
def splitOnFirst (pat : List Char) : List Char → Option (List Char × List Char)
  | [] => if listStartsWith pat [] then some ([], []) else none
  | c :: s =>
    if listStartsWith pat (c :: s) then some ([], (c :: s).drop pat.length)
    else
      match splitOnFirst pat s with
      | some (pre, post) => some (c :: pre, post)
      | none => none

/-- Opening delimiter literal of robust_cot.py line 127. -/
def actionTag : List Char := "<|ACTION|>".data

/-- Closing delimiter literal of robust_cot.py line 127. -/
def endTag : List Char := "<|END|>".data

/-- Embedding of the regex search of RobustCoTAgent._extract_final_answer
(robust_cot.py line 127) with DOTALL: the leftmost match of the pattern
ACTION-tag, non-greedy group, END-tag.  A match exists exactly when an END
tag occurs after the first ACTION tag, and the non-greedy group stops at the
first END tag after it; the captured inner text is returned. -/
def searchDelimited (s : String) : Option String :=
  match splitOnFirst actionTag s.data with
  | none => none
  | some (_, rest) =>
    match splitOnFirst endTag rest with
    | none => none
    | some (inner, _) => some (String.mk inner)

/-- Characters dropped from both ends by the Python str.strip() call of
robust_cot.py line 129. -/
def stripChars (l : List Char) : List Char :=
  ((l.dropWhile isPyWhitespace).reverse.dropWhile isPyWhitespace).reverse

/-- Embedding of str.strip() on the captured group. -/
def pyStrip (s : String) : String := String.mk (stripChars s.data)

/-- Sentinel failure string of robust_cot.py line 132. -/
def failureSentinel : String := "Failed to obtain a valid action from the reasoning."

/-- Embedding of RobustCoTAgent._extract_final_answer (robust_cot.py lines
109-137): copy the response, overwrite reasoning with the raw completion,
then replace completion with the stripped captured group of the first
delimited match, or with the sentinel when there is no match. -/
def robustExtractFinalAnswer (r : Response) : Response :=
  let withReasoning : Response := { r with reasoning := some r.completion }
  let extracted : String :=
    match searchDelimited r.completion with
    | some inner => pyStrip inner
    | none => failureSentinel
  { withReasoning with completion := extracted }

/-- Placeholder message used only to make list indexing total in the
embedding; it is never reached on the nonempty sealed episodes produced by
wrapEpisode, matching the Python indexing that would raise on an empty
list. -/
def dummyMessage : Message := { role := "", content := "" }

/-- Trailing instruction literal of naive.py lines 32-34, identically
few_shot.py lines 124-126, after the .strip() call. -/
def naiveInstruction : String :=
  "You always have to output one of the above actions at a time and no other text. You always have to output an action until the episode terminates."

/-- Trailing instruction literal of robust_cot.py lines 40-48 after the
.strip() call. -/
def cotInstructions : String :=
  "First, think about the best course of action. Think step by step, but be concise in your reasoning. Focus on the most important factors and avoid unnecessary details.\n\nThen, you must choose exactly one of the listed actions and output it strictly in the following format:\n\n<|ACTION|>YOUR_CHOSEN_ACTION<|END|>\n\nReplace YOUR_CHOSEN_ACTION with the chosen action."

/-- Embedding of the guarded instruction append of naive.py lines 36-37 and
few_shot.py lines 128-129: the content of the final message is extended only
when the list is nonempty and that final message has role user; otherwise
the list is returned unchanged. -/
def appendInstructionGuarded (instr : String) (msgs : List Message) : List Message :=
  if !msgs.isEmpty && (msgs.getLastD dummyMessage).role == "user" then
    msgs.dropLast ++
      [{ msgs.getLastD dummyMessage with
          content := (msgs.getLastD dummyMessage).content ++ "\n\n" ++ instr ++ " /no_think" }]
  else msgs

/-- Embedding of the unconditional instruction append of robust_cot.py line
51: the final message is extended whatever its role; on an empty list the
Python indexing raises IndexError, modelled here by none. -/
def appendToLastUnguarded (instr : String) (msgs : List Message) : Option (List Message) :=
  match msgs.getLast? with
  | none => none
  | some m =>
    some (msgs.dropLast ++ [{ m with content := m.content ++ "\n\n" ++ instr ++ " /no_think" }])

/-- Call made by an agent on its prompt-builder collaborator.  The
observation payload is omitted because only the calling protocol is at
stake. -/
inductive BuilderCall where
  | updateAction (action : String)
  | updateObservation
  deriving DecidableEq, Repr

/-- Truthiness of the optional prev_action string in Python: None and the
empty string are falsy, every other string is truthy. -/
def pyTruthyStr : Option String → Bool
  | none => false
  | some s => !s.isEmpty

/-- Prompt-builder calls issued by the opening statements of act, identical
in NaiveAgent.act (naive.py lines 25-28), FewShotAgent.act (few_shot.py
lines 112-115) and RobustCoTAgent.act (robust_cot.py lines 32-35):
update_action exactly when prev_action is truthy, then update_observation. -/
def actBuilderCalls (prevAction : Option String) : List BuilderCall :=
  (if pyTruthyStr prevAction then [BuilderCall.updateAction (prevAction.getD "")] else [])
    ++ [BuilderCall.updateObservation]

/-- Message produced for one recorded event when an episode is sealed
(few_shot.py lines 54-61).  The source spells the observation prefix with
the literal characters Obesrvation. -/
def eventMessage : IclEvent → Message
  | IclEvent.observation t => { role := "user", content := "Obesrvation:\n" ++ t }
  | IclEvent.action a => { role := "assistant", content := a }

/-- START marker of demonstration episode number n (few_shot.py line 52). -/
def startMarker (n : Nat) : Message :=
  { role := "user", content := "****** START OF DEMONSTRATION EPISODE " ++ toString n ++ " ******" }

/-- END marker of demonstration episode number n (few_shot.py line 63). -/
def endMarker (n : Nat) : Message :=
  { role := "user", content := "****** END OF DEMONSTRATION EPISODE " ++ toString n ++ " ******" }

/-- Embedding of FewShotAgent.wrap_episode (few_shot.py lines 49-67) applied
to the buffered events when numPrev episodes are already stored: START
marker, one message per event in order, END marker. -/
def wrapEpisode (events : List IclEvent) (numPrev : Nat) : List Message :=
  startMarker (numPrev + 1) :: (events.map eventMessage ++ [endMarker (numPrev + 1)])

/-- Sealing of a sequence of event buffers in arrival order, numbering each
episode by the count of episodes already stored, exactly as repeated
wrap_episode calls do. -/
def sealEpisodes (numPrev : Nat) : List (List IclEvent) → List (List Message)
  | [] => []
  | evs :: rest => wrapEpisode evs numPrev :: sealEpisodes (numPrev + 1) rest

/-- Demonstration-framing text substituted for the literal PLAY (few_shot.py
line 74). -/
def demoFraming : String := "First, observe the demonstrations provided and learn from them!"

/-- Instruction header of the ICL prompt (few_shot.py lines 70-76): the
external system prompt with PLAY replaced by the framing text. -/
def iclInstruction (systemPrompt : String) : Message :=
  { role := "user", content := systemPrompt.replace "PLAY" demoFraming }

/-- Closing message of the ICL prompt (few_shot.py lines 94-97). -/
def endDemoMessage : Message :=
  { role := "user", content := "****** Now it\x27s your turn to play the game! ******" }

/-- Embedding of the episode loop of FewShotAgent.get_icl_prompt
(few_shot.py lines 80-92): include an episode whole while its paired-message
count (list length minus the two markers) keeps the running count i within
the budget; otherwise include the episode truncated to its first
maxIclHistory - i + 1 messages plus its final message and stop.  The running
count i never exceeds maxIclHistory, so the truncated Nat subtraction agrees
with the Python integer arithmetic. -/
def iclWindow (maxIclHistory : Nat) : List (List Message) → Nat → List Message
  | [], _ => []
  | ep :: rest, i =>
    if i + (ep.length - 2) ≤ maxIclHistory then
      ep ++ iclWindow maxIclHistory rest (i + (ep.length - 2))
    else
      ep.take (maxIclHistory - i + 1) ++ [ep.getLastD dummyMessage]

/-- Embedding of FewShotAgent.get_icl_prompt (few_shot.py lines 69-100):
instruction header, windowed episodes, closing message. -/
def getIclPrompt (systemPrompt : String) (episodes : List (List Message)) (maxIclHistory : Nat) :
    List Message :=
  iclInstruction systemPrompt :: (iclWindow maxIclHistory episodes 0 ++ [endDemoMessage])

/-- Paired (non-marker) in-context-learning message: an assistant action
message, or a user observation message carrying the fixed observation
prefix.  The START and END markers, the closing message and any instruction
header derived from a system prompt that does not begin with the observation
prefix are not of this shape. -/
def isIclStepMsg (m : Message) : Bool :=
  m.role == "assistant" ||
    (m.role == "user" && listStartsWith "Obesrvation:\n".data m.content.data)

/-- Count of paired (non-marker) messages in a message list. -/
def pairedCount (msgs : List Message) : Nat := msgs.countP isIclStepMsg

/-- Episode produced by some wrap_episode call. -/
def SealedEp (ep : List Message) : Prop := ∃ evs n, ep = wrapEpisode evs n

/-- Prefix relation on lists: the first list followed by some tail equals
the second. -/
def IsPrefixList {α : Type} (l₁ l₂ : List α) : Prop := ∃ t, l₁ ++ t = l₂

/-- Concrete response used to retrace the structured round-trip example. -/
def blahResponse : Response :=
  { model_id := "m", completion := "blah <|ACTION|> north <|END|> blah",
    stop_reason := "stop", input_tokens := 1, output_tokens := 2, reasoning := none }

/-- Concrete response whose delimited match captures an empty group. -/
def emptyActionResponse : Response :=
  { model_id := "m", completion := "<|ACTION|><|END|>", stop_reason := "stop",
    input_tokens := 0, output_tokens := 0, reasoning := none }

/-- Concrete response with no delimiter tags at all. -/
def noTagResponse : Response :=
  { model_id := "m", completion := "go north", stop_reason := "stop",
    input_tokens := 0, output_tokens := 0, reasoning := none }

/-- Concrete assembled message list ending in an assistant message. -/
def asstTail : Message := { role := "assistant", content := "ok" }

/-- Demonstration event buffers of sizes 2, 3 and 2 paired messages. -/
def demoEvs1 : List IclEvent := [IclEvent.observation "o1", IclEvent.action "a1"]

def demoEvs2 : List IclEvent :=
  [IclEvent.observation "o2", IclEvent.action "a2", IclEvent.observation "o3"]

def demoEvs3 : List IclEvent := [IclEvent.observation "o4", IclEvent.action "a4"]

/-! Supporting lemmas. -/

theorem listStartsWith_self_append (pat t : List Char) :
    listStartsWith pat (pat ++ t) = true := by
  induction pat with
  | nil => rfl
  | cons a p ih => simp [listStartsWith, ih]

/-- Characterization of the leftmost splitter: on a string decomposed around
an occurrence of pat that is preceded by no earlier occurrence, splitOnFirst
returns exactly that decomposition. -/
theorem splitOnFirst_of_decomp (pat : List Char) :
    ∀ (pre post : List Char),
      (∀ j, j < pre.length → listStartsWith pat ((pre ++ (pat ++ post)).drop j) = false) →
      splitOnFirst pat (pre ++ (pat ++ post)) = some (pre, post) := by
  intro pre
  induction pre with
  | nil =>
    intro post _
    cases pat with
    | nil =>
      cases post with
      | nil => rfl
      | cons c s => simp [splitOnFirst, listStartsWith]
    | cons a p =>
      show splitOnFirst (a :: p) ((a :: p) ++ post) = some ([], post)
      rw [List.cons_append, splitOnFirst]
      rw [← List.cons_append, listStartsWith_self_append]
      simp [List.drop_left]
  | cons c pre ih =>
    intro post hmin
    rw [List.cons_append, splitOnFirst]
    have h0 : listStartsWith pat (c :: (pre ++ (pat ++ post))) = false := by
      have := hmin 0 (Nat.succ_pos _)
      simpa using this
    rw [h0]
    simp only [Bool.false_eq_true, if_false]
    have hrec := ih post (fun j hj => by
      have := hmin (j + 1) (by simpa using Nat.succ_lt_succ hj)
      simpa using this)
    rw [hrec]

theorem isIclStepMsg_eventMessage (e : IclEvent) : isIclStepMsg (eventMessage e) = true := by
  cases e with
  | observation t => rfl
  | action a => rfl

theorem isIclStepMsg_startMarker (n : Nat) : isIclStepMsg (startMarker n) = false := rfl

theorem isIclStepMsg_endMarker (n : Nat) : isIclStepMsg (endMarker n) = false := rfl

theorem isIclStepMsg_endDemoMessage : isIclStepMsg endDemoMessage = false := rfl

theorem pairedCount_nil : pairedCount [] = 0 := rfl

theorem pairedCount_append (l₁ l₂ : List Message) :
    pairedCount (l₁ ++ l₂) = pairedCount l₁ + pairedCount l₂ := by
  simp [pairedCount]

theorem pairedCount_cons_not (m : Message) (l : List Message) (h : isIclStepMsg m = false) :
    pairedCount (m :: l) = pairedCount l := by
  simp [pairedCount, List.countP_cons, h]

theorem pairedCount_eventMessages (evs : List IclEvent) :
    pairedCount (evs.map eventMessage) = evs.length := by
  unfold pairedCount
  rw [List.countP_eq_length.mpr, List.length_map]
  intro m hm
  obtain ⟨e, _, rfl⟩ := List.mem_map.mp hm
  exact isIclStepMsg_eventMessage e

theorem pairedCount_take_eventMessages (evs : List IclEvent) (k : Nat) :
    pairedCount ((evs.map eventMessage).take k) = min k evs.length := by
  unfold pairedCount
  rw [List.countP_eq_length.mpr, List.length_take, List.length_map]
  intro m hm
  obtain ⟨e, _, rfl⟩ := List.mem_map.mp (List.mem_of_mem_take hm)
  exact isIclStepMsg_eventMessage e

theorem length_wrapEpisode (evs : List IclEvent) (n : Nat) :
    (wrapEpisode evs n).length = evs.length + 2 := by
  simp [wrapEpisode]

theorem pairedCount_wrapEpisode (evs : List IclEvent) (n : Nat) :
    pairedCount (wrapEpisode evs n) = evs.length := by
  rw [wrapEpisode, pairedCount_cons_not _ _ (isIclStepMsg_startMarker _), pairedCount_append,
    pairedCount_cons_not _ _ (isIclStepMsg_endMarker _), pairedCount_nil,
    pairedCount_eventMessages, Nat.add_zero]

theorem getLastD_wrapEpisode (evs : List IclEvent) (n : Nat) :
    (wrapEpisode evs n).getLastD dummyMessage = endMarker (n + 1) := by
  rw [wrapEpisode, ← List.cons_append, List.getLastD_concat]

theorem take_wrapEpisode (evs : List IclEvent) (n k : Nat) (hk : k ≤ evs.length) :
    (wrapEpisode evs n).take (k + 1) =
      startMarker (n + 1) :: (evs.map eventMessage).take k := by
  rw [wrapEpisode, List.take_succ_cons, List.take_append_of_le_length (by simpa using hk)]

theorem sealEpisodes_sealed :
    ∀ (evss : List (List IclEvent)) (k : Nat), ∀ ep ∈ sealEpisodes k evss, SealedEp ep := by
  intro evss
  induction evss with
  | nil => intro k ep h; cases h
  | cons evs rest ih =>
    intro k ep h
    rw [sealEpisodes] at h
    rcases List.mem_cons.mp h with h | h
    · exact ⟨evs, k, h⟩
    · exact ih (k + 1) ep h

theorem iclWindow_pairedCount_le (maxH : Nat) :
    ∀ (eps : List (List Message)), (∀ ep ∈ eps, SealedEp ep) →
    ∀ i : Nat, i ≤ maxH → pairedCount (iclWindow maxH eps i) ≤ maxH - i := by
  intro eps
  induction eps with
  | nil => intro _ i _; simp [iclWindow, pairedCount]
  | cons ep rest ih =>
    intro hseal i hi
    obtain ⟨evs, n, rfl⟩ := hseal ep (List.mem_cons_self _ _)
    rw [iclWindow]
    have hlen : (wrapEpisode evs n).length - 2 = evs.length := by
      rw [length_wrapEpisode]; omega
    by_cases hfit : i + ((wrapEpisode evs n).length - 2) ≤ maxH
    · rw [if_pos hfit, pairedCount_append, pairedCount_wrapEpisode]
      have h2 := ih (fun e he => hseal e (List.mem_cons_of_mem _ he))
        (i + ((wrapEpisode evs n).length - 2)) hfit
      rw [hlen] at hfit h2 ⊢
      omega
    · rw [if_neg hfit]
      rw [hlen] at hfit
      have hklt : maxH - i < evs.length := by omega
      rw [take_wrapEpisode evs n (maxH - i) (Nat.le_of_lt hklt), getLastD_wrapEpisode,
        pairedCount_append, pairedCount_cons_not _ _ (isIclStepMsg_startMarker _),
        pairedCount_cons_not _ _ (isIclStepMsg_endMarker _), pairedCount_nil,
        pairedCount_take_eventMessages]
      omega

theorem isPrefixList_nil {α : Type} (l : List α) : IsPrefixList [] l := ⟨l, rfl⟩

theorem isPrefixList_append {α : Type} (l t : List α) : IsPrefixList l (l ++ t) := ⟨t, rfl⟩

theorem isPrefixList_take {α : Type} (k : Nat) (l : List α) : IsPrefixList (l.take k) l :=
  ⟨l.drop k, List.take_append_drop k l⟩

theorem isPrefixList_trans {α : Type} {a b c : List α}
    (h1 : IsPrefixList a b) (h2 : IsPrefixList b c) : IsPrefixList a c := by
  obtain ⟨t1, h1⟩ := h1
  obtain ⟨t2, h2⟩ := h2
  exact ⟨t1 ++ t2, by rw [← List.append_assoc, h1, h2]⟩

theorem isPrefixList_append_both {α : Type} (c : List α) {a b : List α}
    (h : IsPrefixList a b) : IsPrefixList (c ++ a) (c ++ b) := by
  obtain ⟨t, ht⟩ := h
  exact ⟨t, by rw [List.append_assoc, ht]⟩

theorem filter_cons_false (m : Message) (l : List Message) (h : isIclStepMsg m = false) :
    (m :: l).filter isIclStepMsg = l.filter isIclStepMsg := by
  simp [List.filter_cons, h]

theorem filter_singleton_false (m : Message) (h : isIclStepMsg m = false) :
    [m].filter isIclStepMsg = [] := by
  simp [List.filter_cons, h]

theorem filter_eventMessages (evs : List IclEvent) :
    (evs.map eventMessage).filter isIclStepMsg = evs.map eventMessage :=
  List.filter_eq_self.mpr (fun m hm => by
    obtain ⟨e, _, rfl⟩ := List.mem_map.mp hm
    exact isIclStepMsg_eventMessage e)

theorem filter_eventMessages_take (evs : List IclEvent) (j : Nat) :
    (List.take j (evs.map eventMessage)).filter isIclStepMsg =
      List.take j (evs.map eventMessage) :=
  List.filter_eq_self.mpr (fun m hm => by
    obtain ⟨e, _, rfl⟩ := List.mem_map.mp (List.mem_of_mem_take hm)
    exact isIclStepMsg_eventMessage e)

theorem filter_wrapEpisode (evs : List IclEvent) (n : Nat) :
    (wrapEpisode evs n).filter isIclStepMsg = evs.map eventMessage := by
  rw [wrapEpisode, filter_cons_false _ _ (isIclStepMsg_startMarker _), List.filter_append,
    filter_singleton_false _ (isIclStepMsg_endMarker _), List.append_nil, filter_eventMessages]

theorem filter_take_wrapEpisode (evs : List IclEvent) (n k : Nat) :
    IsPrefixList (((wrapEpisode evs n).take k).filter isIclStepMsg) (evs.map eventMessage) := by
  cases k with
  | zero => exact isPrefixList_nil (evs.map eventMessage)
  | succ j =>
    rw [wrapEpisode, List.take_succ_cons, filter_cons_false _ _ (isIclStepMsg_startMarker _),
      List.take_append_eq_append_take, List.filter_append, filter_eventMessages_take]
    have h1 : (List.take (j - (evs.map eventMessage).length) [endMarker (n + 1)]).filter
        isIclStepMsg = [] := by
      cases j - (evs.map eventMessage).length with
      | zero => rfl
      | succ m =>
        rw [List.take_succ_cons, List.take_nil,
          filter_singleton_false _ (isIclStepMsg_endMarker _)]
    rw [h1, List.append_nil]
    exact isPrefixList_take j (evs.map eventMessage)

theorem iclWindow_filter_pre (maxH : Nat) :
    ∀ (eps : List (List Message)), (∀ ep ∈ eps, SealedEp ep) → ∀ i : Nat,
      IsPrefixList ((iclWindow maxH eps i).filter isIclStepMsg)
        ((eps.map (fun ep => ep.filter isIclStepMsg)).flatten) := by
  intro eps
  induction eps with
  | nil => intro _ i; exact isPrefixList_nil []
  | cons ep rest ih =>
    intro hseal i
    obtain ⟨evs, n, rfl⟩ := hseal ep (List.mem_cons_self _ _)
    rw [iclWindow, List.map_cons, List.flatten_cons]
    by_cases hfit : i + ((wrapEpisode evs n).length - 2) ≤ maxH
    · rw [if_pos hfit, List.filter_append]
      exact isPrefixList_append_both _
        (ih (fun e he => hseal e (List.mem_cons_of_mem _ he)) _)
    · rw [if_neg hfit, List.filter_append, getLastD_wrapEpisode,
        filter_singleton_false _ (isIclStepMsg_endMarker _), List.append_nil,
        filter_wrapEpisode]
      exact isPrefixList_trans (filter_take_wrapEpisode evs n (maxH - i + 1))
        (isPrefixList_append _ _)

/-! Claim theorems. -/

/-- C1: for every sequence of sealed ICL episodes and every max_steps, the
episode window of the prompt returned by get_icl_prompt (everything after the
instruction header, whose content is an externally supplied system prompt)
contains at most max_steps paired (non-marker) messages; START and END
markers and the closing message are not counted. -/
theorem c1_windowing_bound (systemPrompt : String) (evss : List (List IclEvent))
    (maxSteps : Nat) :
    pairedCount ((getIclPrompt systemPrompt (sealEpisodes 0 evss) maxSteps).drop 1) ≤
      maxSteps := by
  have hwin := iclWindow_pairedCount_le maxSteps (sealEpisodes 0 evss)
    (sealEpisodes_sealed evss 0) 0 (Nat.zero_le _)
  rw [getIclPrompt]
  show pairedCount (iclWindow maxSteps (sealEpisodes 0 evss) 0 ++ [endDemoMessage]) ≤ maxSteps
  rw [pairedCount_append, pairedCount_cons_not _ _ isIclStepMsg_endDemoMessage,
    pairedCount_nil]
  omega

/-- C6: the paired (non-marker) messages of the windowed prompt, in order,
are a prefix of the concatenation, in insertion order, of the sealed
episodes non-marker messages: truncation never reorders and never drops
from the middle. -/
theorem c6_prefix_preservation (systemPrompt : String) (evss : List (List IclEvent))
    (maxSteps : Nat) :
    IsPrefixList
      (((getIclPrompt systemPrompt (sealEpisodes 0 evss) maxSteps).drop 1).filter isIclStepMsg)
      (((sealEpisodes 0 evss).map (fun ep => ep.filter isIclStepMsg)).flatten) := by
  rw [getIclPrompt]
  show IsPrefixList
    ((iclWindow maxSteps (sealEpisodes 0 evss) 0 ++ [endDemoMessage]).filter isIclStepMsg) _
  rw [List.filter_append, filter_singleton_false _ isIclStepMsg_endDemoMessage,
    List.append_nil]
  exact iclWindow_filter_pre maxSteps (sealEpisodes 0 evss) (sealEpisodes_sealed evss 0) 0

/-- C7: sealing three episodes of 2, 3 and 2 paired messages and building
the windowed prompt with max_steps 4 yields episode 1 whole, episode 2
truncated to its first 2 paired messages plus its END marker, and nothing
of episode 3. -/
theorem c7_end_to_end_scenario (systemPrompt : String) :
    getIclPrompt systemPrompt (sealEpisodes 0 [demoEvs1, demoEvs2, demoEvs3]) 4 =
      [iclInstruction systemPrompt,
       { role := "user", content := "****** START OF DEMONSTRATION EPISODE 1 ******",
         attachment := none },
       { role := "user", content := "Obesrvation:\no1", attachment := none },
       { role := "assistant", content := "a1", attachment := none },
       { role := "user", content := "****** END OF DEMONSTRATION EPISODE 1 ******",
         attachment := none },
       { role := "user", content := "****** START OF DEMONSTRATION EPISODE 2 ******",
         attachment := none },
       { role := "user", content := "Obesrvation:\no2", attachment := none },
       { role := "assistant", content := "a2", attachment := none },
       { role := "user", content := "****** END OF DEMONSTRATION EPISODE 2 ******",
         attachment := none },
       endDemoMessage] := by
  rfl

/-- C2: the structured extraction sets reasoning to the original unfiltered
completion, and when the completion decomposes around the first ACTION tag
followed by a group closed by the first END tag after it, the extracted
completion is that inner group with surrounding whitespace stripped. -/
theorem c2_structured_extraction_first_match (r : Response) (pre inner post : List Char)
    (hsplit : r.completion.data = pre ++ (actionTag ++ (inner ++ (endTag ++ post))))
    (hfirstA : ∀ j, j < pre.length →
      listStartsWith actionTag (r.completion.data.drop j) = false)
    (hfirstE : ∀ j, j < inner.length →
      listStartsWith endTag ((inner ++ (endTag ++ post)).drop j) = false) :
    (robustExtractFinalAnswer r).reasoning = some r.completion ∧
    (robustExtractFinalAnswer r).completion = pyStrip (String.mk inner) := by
  have h1 : splitOnFirst actionTag r.completion.data =
      some (pre, inner ++ (endTag ++ post)) := by
    rw [hsplit]
    exact splitOnFirst_of_decomp actionTag pre (inner ++ (endTag ++ post))
      (fun j hj => by rw [← hsplit]; exact hfirstA j hj)
  have h2 : splitOnFirst endTag (inner ++ (endTag ++ post)) = some (inner, post) :=
    splitOnFirst_of_decomp endTag inner post hfirstE
  have hsd : searchDelimited r.completion = some (String.mk inner) := by
    unfold searchDelimited
    simp only [h1, h2]
  refine ⟨rfl, ?_⟩
  have hc : (robustExtractFinalAnswer r).completion =
      (match searchDelimited r.completion with
       | some s => pyStrip s
       | none => failureSentinel) := rfl
  rw [hc, hsd]

/-- C2 witness: on the completion blah ACTION north END blah the extraction
returns completion north and reasoning equal to the full original string. -/
theorem c2_structured_extraction_round_trip :
    (robustExtractFinalAnswer blahResponse).completion = "north" ∧
    (robustExtractFinalAnswer blahResponse).reasoning =
      some "blah <|ACTION|> north <|END|> blah" := by
  have h := c2_structured_extraction_first_match blahResponse
    "blah ".data " north ".data " blah".data (by decide) (by decide) (by decide)
  refine ⟨?_, h.1⟩
  rw [h.2]
  decide

/-- C3 counterexample: the instruction append of RobustCoTAgent.act is
unconditional, so a final assistant message does get its content changed,
contradicting the claim that every agent variant leaves an assistant tail
unchanged. -/
theorem c3_robust_append_counterexample :
    appendToLastUnguarded cotInstructions [asstTail] =
      some [{ role := "assistant",
              content := "ok" ++ "\n\n" ++ cotInstructions ++ " /no_think",
              attachment := none }] ∧
    ("ok" ++ "\n\n" ++ cotInstructions ++ " /no_think" : String) ≠ "ok" := by
  constructor
  · rfl
  · decide

/-- C3 amended: the Naive and FewShot variants guard the append on the final
message having role user and leave any other tail unchanged, while the
RobustCoT variant appends to the final message unconditionally. -/
theorem c3_guarded_append_amended (msgs : List Message) (m : Message)
    (hlast : msgs.getLast? = some m) (hrole : m.role ≠ "user") :
    appendInstructionGuarded naiveInstruction msgs = msgs ∧
    appendToLastUnguarded cotInstructions msgs =
      some (msgs.dropLast ++
        [{ m with content := m.content ++ "\n\n" ++ cotInstructions ++ " /no_think" }]) := by
  constructor
  · unfold appendInstructionGuarded
    have hld : msgs.getLastD dummyMessage = m := by
      rw [List.getLastD_eq_getLast?, hlast]
      rfl
    have hcond : (!msgs.isEmpty && (msgs.getLastD dummyMessage).role == "user") = false := by
      rw [hld, beq_eq_false_iff_ne.mpr hrole, Bool.and_false]
    rw [hcond]
    rfl
  · unfold appendToLastUnguarded
    rw [hlast]

/-- C3 amended witness: a one-element assistant-tailed list is unchanged by
the guarded append and extended by the unguarded one. -/
theorem c3_guarded_append_amended_witness :
    appendInstructionGuarded naiveInstruction [asstTail] = [asstTail] ∧
    appendToLastUnguarded cotInstructions [asstTail] =
      some [{ asstTail with
              content := asstTail.content ++ "\n\n" ++ cotInstructions ++ " /no_think" }] := by
  have h := c3_guarded_append_amended [asstTail] asstTail rfl (by decide)
  exact ⟨h.1, by rw [h.2]; rfl⟩

/-- C4 counterexample: the message produced for an observation event starts
with the source literal Obesrvation and not with the claimed spelling
Observation. -/
theorem c4_observation_spelling_counterexample :
    (wrapEpisode [IclEvent.observation "hi"] 0)[1]? =
      some { role := "user", content := "Obesrvation:\nhi", attachment := none } ∧
    ("Obesrvation:\nhi" : String) ≠ "Observation:\n" ++ "hi" := by
  constructor
  · rfl
  · decide

/-- C4 amended: sealing turns each observation event into a user message
with the fixed prefix Obesrvation (spelled as in the source) followed by the
event text, and each action event into an assistant message with the raw
action text; the messages between the markers are exactly these, in order. -/
theorem c4_wrap_episode_amended (events : List IclEvent) (n : Nat) :
    ((wrapEpisode events n).drop 1).dropLast = events.map eventMessage ∧
    (∀ t, eventMessage (IclEvent.observation t) =
      { role := "user", content := "Obesrvation:\n" ++ t, attachment := none }) ∧
    (∀ a, eventMessage (IclEvent.action a) =
      { role := "assistant", content := a, attachment := none }) := by
  refine ⟨?_, fun t => rfl, fun a => rfl⟩
  show (events.map eventMessage ++ [endMarker (n + 1)]).dropLast = events.map eventMessage
  exact List.dropLast_concat

/-- C5 counterexample: a successful structured extraction can produce the
empty completion, namely when the delimited group is empty. -/
theorem c5_empty_action_counterexample :
    (robustExtractFinalAnswer emptyActionResponse).completion = "" := by decide

/-- C5 amended: when the completion contains no delimited match the
structured extraction falls back to the fixed nonempty sentinel string, not
to the empty string; a successful extraction may however be empty. -/
theorem c5_sentinel_on_miss_amended (r : Response)
    (h : searchDelimited r.completion = none) :
    (robustExtractFinalAnswer r).completion = failureSentinel ∧
    (robustExtractFinalAnswer r).completion ≠ "" := by
  have hc : (robustExtractFinalAnswer r).completion =
      (match searchDelimited r.completion with
       | some s => pyStrip s
       | none => failureSentinel) := rfl
  rw [hc, h]
  exact ⟨rfl, by decide⟩

/-- C5 amended witness: a completion with no tags yields the sentinel. -/
theorem c5_sentinel_on_miss_amended_witness :
    (robustExtractFinalAnswer noTagResponse).completion = failureSentinel ∧
    (robustExtractFinalAnswer noTagResponse).completion ≠ "" :=
  c5_sentinel_on_miss_amended noTagResponse (by decide)

/-- C8: the plain-text filter is idempotent. -/
theorem c8_filter_idempotent (s : String) :
    filterLetters (filterLetters s) = filterLetters s := by
  unfold filterLetters
  exact congrArg String.mk
    (List.filter_eq_self.mpr (fun a ha => (List.mem_filter.mp ha).2))

/-- C9: both extraction policies return a record whose fields other than
completion (and, for the structured policy, reasoning) equal those of the
input response; the input itself is a value and is never mutated. -/
theorem c9_field_preservation (r : Response) :
    (naiveExtractFinalAnswer r).model_id = r.model_id ∧
    (naiveExtractFinalAnswer r).stop_reason = r.stop_reason ∧
    (naiveExtractFinalAnswer r).input_tokens = r.input_tokens ∧
    (naiveExtractFinalAnswer r).output_tokens = r.output_tokens ∧
    (naiveExtractFinalAnswer r).reasoning = r.reasoning ∧
    (robustExtractFinalAnswer r).model_id = r.model_id ∧
    (robustExtractFinalAnswer r).stop_reason = r.stop_reason ∧
    (robustExtractFinalAnswer r).input_tokens = r.input_tokens ∧
    (robustExtractFinalAnswer r).output_tokens = r.output_tokens :=
  ⟨rfl, rfl, rfl, rfl, rfl, rfl, rfl, rfl, rfl⟩

/-- C10: in every agent variant, act with an empty prev_action behaves like
act with no previous action, update_action is issued exactly for a nonempty
previous action, and it precedes the single update_observation call. -/
theorem c10_prev_action_guard :
    actBuilderCalls (some "") = actBuilderCalls none ∧
    (∀ a : String, a ≠ "" → actBuilderCalls (some a) =
      [BuilderCall.updateAction a, BuilderCall.updateObservation]) ∧
    (∀ p : Option String, pyTruthyStr p = false →
      actBuilderCalls p = [BuilderCall.updateObservation]) := by
  refine ⟨by decide, fun a ha => ?_, fun p hp => ?_⟩
  · have htr : pyTruthyStr (some a) = true := by
      show (!a.isEmpty) = true
      cases hie : a.isEmpty with
      | true => exact absurd ((String.isEmpty_iff a).mp hie) ha
      | false => rfl
    unfold actBuilderCalls
    rw [htr]
    rfl
  · unfold actBuilderCalls
    rw [hp]
    rfl

/-- C10 witness: a nonempty previous action issues update_action then
update_observation. -/
theorem c10_prev_action_guard_witness :
    actBuilderCalls (some "north") =
      [BuilderCall.updateAction "north", BuilderCall.updateObservation] :=
  c10_prev_action_guard.2.1 "north" (by decide)
